import Mathlib

/-!
Shallow embedding of the core of the split feature-flag SDK client
(impression pipeline, split sanitizer, local and remote split
synchronizers, auth endpoint) together with proofs about the claims
of its natural-language specification.
-/

/-! ### Impression pipeline -/

/-- Modelled from the spec: splitio/models/impressions.py is not under src/.
An impression is the immutable tuple
(key, feature, treatment, label, changeNumber, bucketingKey, time, previousTime);
time is epoch milliseconds and previousTime is filled by the observer. -/
structure Impression where
  key : String
  feature : String
  treatment : String
  label : String
  changeNumber : Int
  bucketingKey : Option String
  time : Int
  previousTime : Option Int
deriving DecidableEq

/-- The impression fingerprint domain: (key, feature, treatment, label, changeNumber). -/
abbrev Fingerprint := String × String × String × String × Int

/-- Modelled from the spec: the Hasher of splitio/engine/strategies is not under
src/.  The fingerprint is a 64-bit hash over
(key, feature, treatment, label, changeNumber); the hash is modelled as the
tuple itself, which identifies the same evaluation outcome exactly. -/
def hasherProcess (i : Impression) : Fingerprint :=
  (i.key, i.feature, i.treatment, i.label, i.changeNumber)

/-- Modelled from the spec: truncate_time of splitio/engine/strategies is not
under src/.  Hour-bucket truncation in milliseconds, floor division as in
python. -/
def truncate_time (t : Int) : Int := t.fdiv 3600000 * 3600000

/-- Modelled from the spec: the LRU map backing the observer is not under src/.
The cache is held most-recently-used first; test-and-set returns the value
previously stored under the fingerprint, then stores the new time at the
front and evicts down to capacity (strict LRU on access, insertion-or-access
is the same operation). -/
def lruTestAndSet (cap : Nat) (cache : List (Fingerprint × Int)) (fp : Fingerprint) (t : Int) :
    Option Int × List (Fingerprint × Int) :=
  ((cache.find? (fun e => e.1 == fp)).map (fun e => e.2),
   ((fp, t) :: cache.filter (fun e => !(e.1 == fp))).take cap)

/-- Modelled from the spec: Observer.test_and_set of splitio/engine/strategies
is not under src/.  Returns a copy with previousTime set to the last-seen
time if present, else unchanged, and remembers the new time. -/
def observerTestAndSet (cap : Nat) (cache : List (Fingerprint × Int)) (imp : Impression) :
    Impression × List (Fingerprint × Int) :=
  let r := lruTestAndSet cap cache (hasherProcess imp) imp.time
  (match r.1 with
   | some t => { imp with previousTime := some t }
   | none => imp,
   r.2)

/-- Runs the observer over a list of impressions in order, returning the
annotated impressions and the final cache. -/
def annotateAll (cap : Nat) (cache : List (Fingerprint × Int)) :
    List Impression → List Impression × List (Fingerprint × Int)
  | [] => ([], cache)
  | i :: rest =>
    let p := observerTestAndSet cap cache i
    let q := annotateAll cap p.2 rest
    (p.1 :: q.1, q.2)

/-- Increment the count stored under a (feature, timeframe) key, inserting the
key with count one when absent. -/
def bumpCount : List ((String × Int) × Nat) → (String × Int) → List ((String × Int) × Nat)
  | [], k => [(k, 1)]
  | e :: rest, k => if e.1 == k then (e.1, e.2 + 1) :: rest else e :: bumpCount rest k

/-- Modelled from the spec: Counter.track of splitio/engine/strategies is not
under src/.  Increments (feature, truncate_time(time)) for each input. -/
def counterTrack (data : List ((String × Int) × Nat)) (imps : List Impression) :
    List ((String × Int) × Nat) :=
  imps.foldl (fun d i => bumpCount d (i.feature, truncate_time i.time)) data

/-- Insert a key into the set stored under a feature. -/
def uniqueKeysAdd : List (String × List String) → String → String → List (String × List String)
  | [], feature, key => [(feature, [key])]
  | e :: rest, feature, key =>
    if e.1 == feature then
      (e.1, if e.2.contains key then e.2 else e.2 ++ [key]) :: rest
    else
      e :: uniqueKeysAdd rest feature key

/-- Modelled from the spec: the unique-keys tracker of the None strategy is not
under src/.  Tracks (feature, key) for each input impression. -/
def uniqueKeysTrack (cache : List (String × List String)) (imps : List Impression) :
    List (String × List String) :=
  imps.foldl (fun c i => uniqueKeysAdd c i.feature i.key) cache

/-- The three pluggable impression strategies. -/
inductive ImpressionsStrategy where
  | debug : ImpressionsStrategy
  | optimized : ImpressionsStrategy
  | noneMode : ImpressionsStrategy
deriving DecidableEq

/-- State owned by a Manager instance: the observer LRU cache, the counter
data, the unique-keys cache and the listener call log. -/
structure ManagerState where
  observerCache : List (Fingerprint × Int)
  counterData : List ((String × Int) × Nat)
  uniqueKeysCache : List (String × List String)
  listenerLog : List (Impression × Option String)
deriving DecidableEq

/-- The Optimized dedup criterion: emit when previousTime is null or falls in a
strictly earlier hour bucket than the impression time. -/
def optimizedShouldShip (i : Impression) : Bool :=
  match i.previousTime with
  | none => true
  | some pt => decide (truncate_time pt < truncate_time i.time)

/-- Modelled from the spec: the strategy classes of splitio/engine/strategies
are not under src/.  Given the input pairs, a strategy returns the list to
ship, the list handed to the listener and the updated state.  Debug runs the
observer and ships every annotated impression; Optimized runs the observer
and the counter and ships only impressions passing the dedup criterion;
None runs the counter and the unique-keys tracker, ships nothing, and hands
the unannotated input impressions to the listener, as pinned by the
in-repository test test_standalone_none_listener. -/
def strategyProcess (strat : ImpressionsStrategy) (cap : Nat) (st : ManagerState)
    (pairs : List (Impression × Option String)) :
    List Impression × List Impression × ManagerState :=
  match strat with
  | .debug =>
    let a := annotateAll cap st.observerCache (pairs.map Prod.fst)
    (a.1, a.1, { st with observerCache := a.2 })
  | .optimized =>
    let a := annotateAll cap st.observerCache (pairs.map Prod.fst)
    (a.1.filter optimizedShouldShip, a.1,
     { st with observerCache := a.2, counterData := counterTrack st.counterData a.1 })
  | .noneMode =>
    let raw := pairs.map Prod.fst
    ([], raw,
     { st with counterData := counterTrack st.counterData raw,
               uniqueKeysCache := uniqueKeysTrack st.uniqueKeysCache raw })

/-- Modelled from the spec: Manager.process_impressions of
splitio/engine/impressions is not under src/.  Runs the strategy, then,
when a listener is attached, logs one call per input pair using the
impressions the strategy hands to the listener, and returns the list the
strategy shipped. -/
def process_impressions (strat : ImpressionsStrategy) (cap : Nat) (hasListener : Bool)
    (st : ManagerState) (pairs : List (Impression × Option String)) :
    List Impression × ManagerState :=
  let r := strategyProcess strat cap st pairs
  (r.1,
   if hasListener then
     { r.2.2 with listenerLog := r.2.2.listenerLog ++ r.2.1.zip (pairs.map Prod.snd) }
   else r.2.2)

/-- The empty manager state used by concrete runs. -/
def emptyManagerState : ManagerState := ⟨[], [], [], []⟩

/-! ### Helper lemmas about the pipeline -/

theorem annotateAll_length (cap : Nat) (cache : List (Fingerprint × Int))
    (l : List Impression) : (annotateAll cap cache l).1.length = l.length := by
  induction l generalizing cache with
  | nil => rfl
  | cons i rest ih => simp [annotateAll, ih]

theorem zip_map_fst_snd {α β : Type} (l : List (α × β)) :
    (l.map Prod.fst).zip (l.map Prod.snd) = l := by
  induction l with
  | nil => rfl
  | cons e rest ih => simp [ih]

/-! ### Claims C2 and C4 -/

/-- First impression of the None-mode listener run: fingerprint (k1, f1, on, l1, 123). -/
def c2imp1 : Impression := ⟨"k1", "f1", "on", "l1", 123, none, 456, none⟩

/-- Second impression of the None-mode listener run: same fingerprint, later time. -/
def c2imp2 : Impression := ⟨"k1", "f1", "on", "l1", 123, none, 457, none⟩

/-- Claim C2, counterexample: in None mode the listener does not receive the
observer-annotated impression.  After a processImpressions call has seen the
fingerprint at time 456, a second call with the same fingerprint at time 457
logs a listener call whose previousTime is null rather than 456, so the
impression passed to the listener does not carry the previousTime of the most
recent earlier sighting. -/
theorem c2_none_mode_listener_counterexample :
    hasherProcess c2imp1 = hasherProcess c2imp2 ∧
    ((process_impressions .noneMode 500 true
        (process_impressions .noneMode 500 true emptyManagerState [(c2imp1, none)]).2
        [(c2imp2, none)]).2.listenerLog.map (fun p => p.1.previousTime)) = [none, none] := by
  decide

/-- Claim C2 (amended): for every strategy and every call to processImpressions
with a listener attached, the listener is invoked exactly once per input pair;
in Debug and Optimized modes the impression passed to the listener is the
observer-annotated copy, while in None mode it is the unannotated input
impression. -/
theorem c2_listener_called_once_per_pair (strat : ImpressionsStrategy) (cap : Nat)
    (st : ManagerState) (pairs : List (Impression × Option String)) :
    (process_impressions strat cap true st pairs).2.listenerLog
      = st.listenerLog ++
        (match strat with
         | .noneMode => pairs
         | .debug => (annotateAll cap st.observerCache (pairs.map Prod.fst)).1.zip (pairs.map Prod.snd)
         | .optimized =>
             (annotateAll cap st.observerCache (pairs.map Prod.fst)).1.zip (pairs.map Prod.snd)) ∧
    (process_impressions strat cap true st pairs).2.listenerLog.length
      = st.listenerLog.length + pairs.length := by
  cases strat with
  | debug =>
    refine ⟨rfl, ?_⟩
    simp [process_impressions, strategyProcess, List.length_zip, annotateAll_length]
  | optimized =>
    refine ⟨rfl, ?_⟩
    simp [process_impressions, strategyProcess, List.length_zip, annotateAll_length]
  | noneMode =>
    refine ⟨?_, ?_⟩
    · simp [process_impressions, strategyProcess, zip_map_fst_snd]
    · simp [process_impressions, strategyProcess, zip_map_fst_snd]

/-- First impression of the Optimized dedup run at time 1000 (hour bucket 0). -/
def c4imp1 : Impression := ⟨"k1", "f1", "on", "l1", 123, none, 1000, none⟩

/-- Second impression of the Optimized dedup run: same fingerprint, time 2000,
which lies in the same hour bucket as 1000. -/
def c4imp2 : Impression := ⟨"k1", "f1", "on", "l1", 123, none, 2000, none⟩

/-- Claim C4: in Optimized mode an input impression is shipped exactly when its
observer-computed previousTime is null or falls in a strictly earlier hour
bucket, and two impressions with identical fingerprint whose times lie in the
same hour bucket are shipped by at most one of the two processImpressions
calls. -/
theorem c4_optimized_emit_characterization (cap : Nat) (st : ManagerState)
    (pairs : List (Impression × Option String))
    (i1 i2 : Impression) (a1 a2 : Option String)
    (hcap : 1 ≤ cap)
    (hfp : hasherProcess i1 = hasherProcess i2)
    (hbucket : truncate_time i1.time = truncate_time i2.time) :
    (process_impressions .optimized cap true st pairs).1
      = (annotateAll cap st.observerCache (pairs.map Prod.fst)).1.filter optimizedShouldShip ∧
    ((process_impressions .optimized cap true st [(i1, a1)]).1 = [] ∨
     (process_impressions .optimized cap true
        (process_impressions .optimized cap true st [(i1, a1)]).2 [(i2, a2)]).1 = []) := by
  refine ⟨rfl, Or.inr ?_⟩
  cases cap with
  | zero => exact absurd hcap (by decide)
  | succ k =>
    have hbeq : (hasherProcess i1 == hasherProcess i2) = true := by
      simp [hfp]
    simp [process_impressions, strategyProcess, annotateAll, observerTestAndSet,
      lruTestAndSet, List.take_succ_cons, List.find?, hbeq, optimizedShouldShip,
      hbucket]

/-- Claim C4, witness: with capacity 500, processing the two concrete
impressions with equal fingerprint and equal hour bucket in two consecutive
calls ships nothing on the second call. -/
theorem c4_optimized_emit_characterization_witness :
    (process_impressions .optimized 500 true
        (process_impressions .optimized 500 true emptyManagerState [(c4imp1, none)]).2
        [(c4imp2, none)]).1 = [] := by
  have h := c4_optimized_emit_characterization 500 emptyManagerState []
    c4imp1 c4imp2 none none (by decide) (by decide) (by decide)
  rcases h.2 with h1 | h2
  · exact absurd h1 (by decide)
  · exact h2

/-! ### String helpers

The builtin String.trim, String.splitOn, String.startsWith, String.endsWith
and the String order are defined by well-founded recursion and do not reduce
inside the kernel, so the python string operations the source uses are
re-implemented on character lists. -/

deriving instance DecidableEq for Except

/-- A python whitespace character, as stripped by str.strip and matched by the
regex class backslash-s. -/
def isPySpace (c : Char) : Bool :=
  c == ' ' || c == '\t' || c == '\n' || c == '\r' || c == '\x0b' || c == '\x0c'

/-- python str.strip: removes leading and trailing whitespace. -/
def pyStrip (s : String) : String :=
  String.mk (((s.toList.dropWhile isPySpace).reverse.dropWhile isPySpace).reverse)

/-- Whether a line starts with the comment character, the regex caret-hash. -/
def startsWithHash (line : String) : Bool :=
  match line.toList with
  | '#' :: _ => true
  | _ => false

/-- Split a text into its newline-separated lines. -/
def splitLinesGo (cur : List Char) : List Char → List String
  | [] => [String.mk cur.reverse]
  | c :: rest =>
    if c == '\n' then String.mk cur.reverse :: splitLinesGo [] rest
    else splitLinesGo (c :: cur) rest

/-- Split a text into its newline-separated lines. -/
def splitLines (s : String) : List String := splitLinesGo [] s.toList

/-- Whether the lowercased string ends with the given (lowercase) suffix. -/
def lowerEndsWith (s suffix : String) : Bool :=
  suffix.toList.isSuffixOf (s.toList.map Char.toLower)

/-- Lexicographic order on character lists. -/
def charListLe : List Char → List Char → Bool
  | [], _ => true
  | _ :: _, [] => false
  | a :: as, b :: bs => if a < b then true else if b < a then false else charListLe as bs

/-- Lexicographic string order, as python compares strings. -/
def strLe (a b : String) : Bool := charListLe a.toList b.toList

/-! ### Raw split documents and the sanitizer (splitio/sync/split.py) -/

/-- A JSON object entry: distinguishes a missing key, an explicit null, and a
present value, because the python source treats them differently in places
(for example a missing splits key defaults to an empty list while an explicit
null later crashes the iteration). -/
inductive JField (α : Type) where
  | missing : JField α
  | null : JField α
  | val : α → JField α
deriving DecidableEq

/-- Python exception kinds reachable in the modelled code paths.  APIException
carries a message and an optional HTTP status, matching
splitio.api.APIException. -/
inductive PyError where
  | valueError : String → PyError
  | typeError : String → PyError
  | attributeError : String → PyError
  | apiException : String → Option Int → PyError
deriving DecidableEq

/-- A partition of a raw condition. -/
structure RawPartition where
  treatment : String
  size : Int
deriving DecidableEq

/-- A raw matcher.  matcherType is read unconditionally by the sanitizer, so it
is a required field; the remaining matcher payload fields are modelled only as
far as the code in src/ constructs or reads them. -/
structure RawMatcher where
  matcherType : String
  negate : JField Bool
  whitelistMatcherData : JField (List String)
deriving DecidableEq

/-- A raw matcher group. -/
structure RawMatcherGroup where
  combiner : JField String
  matchers : JField (List RawMatcher)
deriving DecidableEq

/-- A raw condition of a raw split document. -/
structure RawCondition where
  conditionType : JField String
  matcherGroup : JField RawMatcherGroup
  partitions : JField (List RawPartition)
  label : JField String
deriving DecidableEq

/-- A raw split of a decoded JSON document, with exactly the keys the code in
src/ reads or writes. -/
structure RawSplit where
  name : JField String := .missing
  trafficTypeName : JField String := .missing
  trafficAllocation : JField Int := .missing
  trafficAllocationSeed : JField Int := .missing
  seed : JField Int := .missing
  status : JField String := .missing
  killed : JField Bool := .missing
  defaultTreatment : JField String := .missing
  changeNumber : JField Int := .missing
  algo : JField Int := .missing
  conditions : JField (List RawCondition) := .missing
  configurations : JField (List (String × String)) := .missing
deriving DecidableEq

/-- A decoded splits file: a JSON document with splits, since and till keys. -/
structure RawDocument where
  splits : JField (List RawSplit) := .missing
  till : JField Int := .missing
  since : JField Int := .missing
deriving DecidableEq

/-- Translation of _sanitize_split_element for one field value.  The checks are
applied in the order of the source: a missing or null value is replaced by the
default, then the lower and upper bounds, then the whitelist, then the
blacklist, each failed check overwriting with the default.  The comparison is
passed in because the python code compares with the dynamic less-than of the
value type. -/
def sanitize_split_element {α : Type} [BEq α] (lt : α → α → Bool) (value : JField α)
    (defaultValue : α) (lower : Option α) (upper : Option α)
    (inList : Option (List α)) (notInList : Option (List α)) : α :=
  let v0 := match value with
    | .missing => defaultValue
    | .null => defaultValue
    | .val x => x
  let v1 := match lower, upper with
    | some lo, some hi => if lt v0 lo || lt hi v0 then defaultValue else v0
    | some lo, none => if lt v0 lo then defaultValue else v0
    | none, some hi => if lt hi v0 then defaultValue else v0
    | none, none => v0
  let v2 := match inList with
    | some l => if l.contains v1 then v1 else defaultValue
    | none => v1
  match notInList with
  | some l => if l.contains v2 then defaultValue else v2
  | none => v2

/-- Dynamic less-than on Int values, as used by the python comparisons. -/
def intLt (a b : Int) : Bool := decide (a < b)

/-- Dummy less-than for field types the source never range-checks; the bounds
passed for those fields are always absent so it is never consulted. -/
def noLt {α : Type} (_x _y : α) : Bool := false

/-- The legal status values, [e.value for e in splits.Status].  Modelled from
the spec: splitio/models/splits.py is not under src/; the spec gives the
status set as ACTIVE and ARCHIVED. -/
def statusValues : List String := ["ACTIVE", "ARCHIVED"]

/-- The per-field coercions of _sanitize_split_elements, applied to one split.
Each line mirrors one tuple of the field table in the source.  The call site
in the source passes only the first five tuple entries
(name, default, lower, upper, in_list) to _sanitize_split_element, so the
sixth entry of the defaultTreatment tuple, the blacklist with the empty and
blank strings, is never forwarded: notInList is none for every field here. -/
def sanitize_split_fields (nowMs : Int) (s : RawSplit) : RawSplit :=
  { s with
    trafficTypeName :=
      .val (sanitize_split_element noLt s.trafficTypeName "user" none none none none),
    trafficAllocation :=
      .val (sanitize_split_element intLt s.trafficAllocation 100 (some 0) (some 100) none none),
    trafficAllocationSeed :=
      .val (sanitize_split_element intLt s.trafficAllocationSeed nowMs (some 0) none none none),
    seed :=
      .val (sanitize_split_element intLt s.seed nowMs (some 0) none none none),
    status :=
      .val (sanitize_split_element noLt s.status "ACTIVE" none none (some statusValues) none),
    killed :=
      .val (sanitize_split_element noLt s.killed false none none none none),
    defaultTreatment :=
      .val (sanitize_split_element noLt s.defaultTreatment "on" none none none none),
    changeNumber :=
      .val (sanitize_split_element intLt s.changeNumber 0 (some 0) none none none),
    algo :=
      .val (sanitize_split_element intLt s.algo 2 (some 2) (some 2) none none) }

/-- Whether one condition is a ROLLOUT condition carrying an ALL_KEYS matcher,
exactly the test of the found_all_keys_matcher scan on inputs where the scan
does not crash. -/
def isAllKeysRollout (c : RawCondition) : Bool :=
  match c.conditionType with
  | .val ct =>
    if ct == "ROLLOUT" then
      match c.matcherGroup with
      | .val mg =>
        match mg.matchers with
        | .val ms => ms.any (fun m => m.matcherType == "ALL_KEYS")
        | _ => false
      | _ => false
    else false
  | _ => false

/-- One step of the found_all_keys_matcher scan of _santizie_condition.  A
condition whose conditionType is missing, or is present but not ROLLOUT, is
skipped; a ROLLOUT condition with a null matcherGroup or null matchers raises
a TypeError, because the python in and for operators reject None. -/
def condHasAllKeys (c : RawCondition) : Except PyError Bool :=
  match c.conditionType with
  | .missing => .ok false
  | .null => .ok false
  | .val ct =>
    if ct == "ROLLOUT" then
      match c.matcherGroup with
      | .missing => .ok false
      | .null => .error (.typeError "argument of type NoneType is not iterable")
      | .val mg =>
        match mg.matchers with
        | .missing => .ok false
        | .null => .error (.typeError "NoneType object is not iterable")
        | .val ms => .ok (ms.any (fun m => m.matcherType == "ALL_KEYS"))
    else .ok false

/-- The found_all_keys_matcher scan over all conditions.  The break in the
source only leaves the inner matcher loop, so every condition is visited even
after a match was found, and a later crashing condition still raises. -/
def findAllKeysMatcher : List RawCondition → Except PyError Bool
  | [] => .ok false
  | c :: rest =>
    match condHasAllKeys c with
    | .error e => .error e
    | .ok b =>
      match findAllKeysMatcher rest with
      | .error e => .error e
      | .ok r => .ok (b || r)

/-- The default rule condition appended by _santizie_condition: a ROLLOUT
condition with an ALL_KEYS matcher whose partitions assign size 0 to on and
size 100 to off, labelled default rule. -/
def defaultRuleCondition : RawCondition :=
  { conditionType := .val "ROLLOUT",
    matcherGroup := .val
      { combiner := .val "AND",
        matchers := .val [{ matcherType := "ALL_KEYS", negate := .val false,
                            whitelistMatcherData := .null }] },
    partitions := .val [{ treatment := "on", size := 0 }, { treatment := "off", size := 100 }],
    label := .val "default rule" }

/-- The conditions list of a split after the conditions default of
_santizie_condition: a missing or null conditions key becomes the empty
list. -/
def condsOf (s : RawSplit) : List RawCondition :=
  match s.conditions with
  | .val cs => cs
  | _ => []

/-- Translation of _santizie_condition (name as in the source): defaults the
conditions list, scans for a ROLLOUT plus ALL_KEYS condition and, when none is
found, appends the default rule condition. -/
def santizie_condition (s : RawSplit) : Except PyError RawSplit :=
  match findAllKeysMatcher (condsOf s) with
  | .error e => .error e
  | .ok true => .ok { s with conditions := .val (condsOf s) }
  | .ok false => .ok { s with conditions := .val (condsOf s ++ [defaultRuleCondition]) }

/-- Translation of _sanitize_split_elements: drops splits whose name is missing
or blank (a null name raises, because the source calls strip on it), then
applies the field coercions and the condition guard to each remaining
split. -/
def sanitize_split_elements (nowMs : Int) : List RawSplit → Except PyError (List RawSplit)
  | [] => .ok []
  | s :: rest =>
    match s.name with
    | .missing => sanitize_split_elements nowMs rest
    | .null => .error (.attributeError "NoneType object has no attribute strip")
    | .val n =>
      if pyStrip n == "" then
        sanitize_split_elements nowMs rest
      else
        match santizie_condition (sanitize_split_fields nowMs s) with
        | .error e => .error e
        | .ok s2 =>
          match sanitize_split_elements nowMs rest with
          | .error e => .error e
          | .ok rest2 => .ok (s2 :: rest2)

/-- Translation of _sanitize_json_elements: a missing splits key becomes the
empty list (an explicit null is left in place), a missing, null or below -1
till becomes -1, and a missing, null, below -1 or above till since becomes
till. -/
def sanitize_json_elements (d : RawDocument) : RawDocument :=
  let splitsF := match d.splits with
    | .missing => JField.val []
    | x => x
  let tillV : Int := match d.till with
    | .missing => -1
    | .null => -1
    | .val t => if t < -1 then -1 else t
  let sinceV : Int := match d.since with
    | .missing => tillV
    | .null => tillV
    | .val s => if s < -1 || s > tillV then tillV else s
  { splits := splitsF, till := .val tillV, since := .val sinceV }

/-- Translation of _sanitize_split: json-level sanitization followed by the
per-split sanitization.  A document whose splits key was an explicit null
raises a TypeError when the split loop iterates it. -/
def sanitize_split (nowMs : Int) (d : RawDocument) : Except PyError RawDocument :=
  let d1 := sanitize_json_elements d
  match d1.splits with
  | .val ss =>
    match sanitize_split_elements nowMs ss with
    | .error e => .error e
    | .ok ss2 => .ok { d1 with splits := .val ss2 }
  | .null => .error (.typeError "NoneType object is not iterable")
  | .missing => .error (.typeError "NoneType object is not iterable")

/-! ### Stable stringification and sha (json.dumps and _get_sha) -/

/-- Encode a list of encoded elements. -/
def encList {α : Type} (enc : α → String) (l : List α) : String :=
  "[" ++ String.intercalate ", " (l.map enc) ++ "]"

/-- Encode a JSON object entry. -/
def encJField {α : Type} (enc : α → String) : JField α → String
  | .missing => "absent"
  | .null => "null"
  | .val a => enc a

/-- Encode a string value. -/
def encStr (s : String) : String := "str(" ++ s ++ ")"

/-- Encode a boolean value. -/
def encBool (b : Bool) : String := if b then "true" else "false"

/-- Encode a configurations entry. -/
def encConfig (p : String × String) : String := "entry(" ++ p.1 ++ ", " ++ p.2 ++ ")"

/-- Encode a partition. -/
def encPartition (p : RawPartition) : String :=
  "partition(" ++ p.treatment ++ ", " ++ toString p.size ++ ")"

/-- Encode a matcher. -/
def encMatcher (m : RawMatcher) : String :=
  "matcher(" ++ m.matcherType ++ ", " ++ encJField encBool m.negate ++ ", "
    ++ encJField (encList encStr) m.whitelistMatcherData ++ ")"

/-- Encode a matcher group. -/
def encMatcherGroup (g : RawMatcherGroup) : String :=
  "matcherGroup(" ++ encJField encStr g.combiner ++ ", "
    ++ encJField (encList encMatcher) g.matchers ++ ")"

/-- Encode a condition. -/
def encCondition (c : RawCondition) : String :=
  "condition(" ++ encJField encStr c.conditionType ++ ", "
    ++ encJField encMatcherGroup c.matcherGroup ++ ", "
    ++ encJField (encList encPartition) c.partitions ++ ", "
    ++ encJField encStr c.label ++ ")"

/-- Encode one split. -/
def encSplit (s : RawSplit) : String :=
  "split(" ++ encJField encStr s.name ++ ", " ++ encJField encStr s.trafficTypeName ++ ", "
    ++ encJField toString s.trafficAllocation ++ ", "
    ++ encJField toString s.trafficAllocationSeed ++ ", "
    ++ encJField toString s.seed ++ ", " ++ encJField encStr s.status ++ ", "
    ++ encJField encBool s.killed ++ ", " ++ encJField encStr s.defaultTreatment ++ ", "
    ++ encJField toString s.changeNumber ++ ", " ++ encJField toString s.algo ++ ", "
    ++ encJField (encList encCondition) s.conditions ++ ", "
    ++ encJField (encList encConfig) s.configurations ++ ")"

/-- The stable stringification of a splits array handed to _get_sha, standing
in for json.dumps: a deterministic rendering of every modelled field.  The
exact character set is irrelevant to the claims; only stability matters. -/
def json_dumps_splits (l : List RawSplit) : String := encList encSplit l

/-! ### Split storage and the local synchronizer -/

/-- The consumed storage interface, as visible to the synchronizer: the change
number and the flags keyed by name. -/
structure SplitStorage where
  changeNumber : Option Int
  flags : List (String × RawSplit)
deriving DecidableEq

/-- Upsert a flag under its name, keeping insertion order for new names. -/
def upsertFlag : List (String × RawSplit) → String → RawSplit → List (String × RawSplit)
  | [], n, s => [(n, s)]
  | e :: rest, n, s => if e.1 == n then (n, s) :: rest else e :: upsertFlag rest n s

/-- Remove a flag by name. -/
def removeFlag (flags : List (String × RawSplit)) (n : String) : List (String × RawSplit) :=
  flags.filter (fun e => !(e.1 == n))

/-- Modelled from the spec: splits.from_raw of splitio/models/splits.py is not
under src/.  The parsed record is modelled as the raw split itself. -/
def from_raw (s : RawSplit) : RawSplit := s

/-- Modelled from the spec: get_segment_names of splitio/models/splits.py is
not under src/ and no claim inspects segment names; it is modelled as the
empty list. -/
def get_segment_names (_s : RawSplit) : List String := []

/-- The name of a split whose name key is present; the splits reaching the
storage operations are sanitized or constructed, so their name is always a
present value. -/
def rawName (s : RawSplit) : String :=
  match s.name with
  | .val n => n
  | _ => ""

/-- storage.put keyed by the parsed name. -/
def storagePut (st : SplitStorage) (n : String) (s : RawSplit) : SplitStorage :=
  { st with flags := upsertFlag st.flags n s }

/-- Whether a sanitized split has status ACTIVE, the test
split.status == splits.Status.ACTIVE.value. -/
def statusIsActive (s : RawSplit) : Bool :=
  match s.status with
  | .val v => v == "ACTIVE"
  | _ => false

/-- One split of the fetched array applied to the storage in _synchronize_json:
an ACTIVE split is put and its segment names accumulated, any other split is
removed by name. -/
def applyJsonSplit (acc : SplitStorage × List String) (s : RawSplit) :
    SplitStorage × List String :=
  if statusIsActive s then
    (storagePut acc.1 (rawName (from_raw s)) (from_raw s),
     acc.2 ++ get_segment_names (from_raw s))
  else
    ({ acc.1 with flags := removeFlag acc.1.flags (rawName s) }, acc.2)

/-- State of a LocalSplitSynchronizer: the storage and the sha recorded at the
last json read (initialized to the string -1). -/
structure LocalSyncState where
  storage : SplitStorage
  currentJsonSha : String
deriving DecidableEq

/-- Translation of _read_splits_from_json_file.  The file input is the decoded
document, or none when the file is unreadable or not valid JSON; any failure,
including a sanitizer crash, is reported as the single parsing ValueError
(the source interpolates the filename into the message, modelled here as a
fixed string without an apostrophe). -/
def read_splits_from_json_file (nowMs : Int) (content : Option RawDocument) :
    Except PyError (List RawSplit × Int) :=
  match content with
  | none => .error (.valueError "Error parsing file. Make sure it is readable.")
  | some parsed =>
    match sanitize_split nowMs parsed with
    | .error _e => .error (.valueError "Error parsing file. Make sure it is readable.")
    | .ok d =>
      match d.splits, d.till with
      | .val ss, .val t => .ok (ss, t)
      | _, _ => .error (.valueError "Error parsing file. Make sure it is readable.")

/-- Translation of _synchronize_json.  The sha is computed over the
stringification of the fetched splits array, which is the array returned by
_read_splits_from_json_file, i.e. after sanitization.  The recorded sha is
updated before the storage change number is compared with till, so a crash of
that comparison (a null change number) leaves the sha updated and the storage
untouched; every failure is re-raised as the single reading ValueError. -/
def synchronize_json (nowMs : Int) (sha : String → String) (content : Option RawDocument)
    (st : LocalSyncState) : Except PyError (List String) × LocalSyncState :=
  match read_splits_from_json_file nowMs content with
  | .error _e => (.error (.valueError "Error reading splits from json."), st)
  | .ok ft =>
    let fetchedSha := sha (json_dumps_splits ft.1)
    if fetchedSha == st.currentJsonSha then
      (.ok [], st)
    else
      let st1 := { st with currentJsonSha := fetchedSha }
      match st1.storage.changeNumber with
      | none => (.error (.valueError "Error reading splits from json."), st1)
      | some cn =>
        if cn ≤ ft.2 then
          let r := ft.1.foldl applyJsonSplit (st1.storage, [])
          (.ok r.2, { st1 with storage := { r.1 with changeNumber := some ft.2 } })
        else
          (.ok [], st1)

/-! ### Legacy and YAML local modes -/

/-- Translation of _make_all_keys_condition. -/
def make_all_keys_condition (treatment : String) : RawCondition :=
  { conditionType := .val "WHITELIST",
    label := .val "some_other_label",
    partitions := .val [{ treatment := treatment, size := 100 }],
    matcherGroup := .val
      { combiner := .val "AND",
        matchers := .val [{ matcherType := "ALL_KEYS", negate := .val false,
                            whitelistMatcherData := .missing }] } }

/-- Translation of _make_whitelist_condition. -/
def make_whitelist_condition (whitelist : List String) (treatment : String) : RawCondition :=
  { conditionType := .val "WHITELIST",
    label := .val "some_other_label",
    partitions := .val [{ treatment := treatment, size := 100 }],
    matcherGroup := .val
      { combiner := .val "AND",
        matchers := .val [{ matcherType := "WHITELIST", negate := .val false,
                            whitelistMatcherData := .val whitelist }] } }

/-- Translation of _make_split: the fixed raw dictionary handed to
splits.from_raw, with change number 123 and the given conditions and
configurations (None for legacy mode, a dictionary for yaml mode). -/
def make_split (name : String) (conds : List RawCondition)
    (configs : JField (List (String × String))) : RawSplit :=
  { changeNumber := .val 123,
    trafficTypeName := .val "user",
    name := .val name,
    trafficAllocation := .val 100,
    trafficAllocationSeed := .val 123456,
    seed := .val 321654,
    status := .val "ACTIVE",
    killed := .val false,
    defaultTreatment := .val "control",
    algo := .val 2,
    conditions := .val conds,
    configurations := configs }

/-- A word character of the legacy definition regex. -/
def isWordChar (c : Char) : Bool := c.isAlphanum || c == '_' || c == '-'

/-- A whitespace character as matched by the regex class backslash-s, without
the newline, because the model receives lines already split on newlines. -/
def isSpaceChar (c : Char) : Bool := c == ' ' || c == '\t' || c == '\r' || c == '\x0b' || c == '\x0c'

/-- The legacy definition line regex: a word-character run, a whitespace run
and a second word-character run spanning the whole line.  The character
classes are disjoint, so greedy spans are equivalent to the regex. -/
def matchLegacyLine (line : String) : Option (String × String) :=
  let cs := line.toList
  let f := cs.takeWhile isWordChar
  let r1 := cs.drop f.length
  let w := r1.takeWhile isSpaceChar
  let r2 := r1.drop w.length
  let t := r2.takeWhile isWordChar
  let r3 := r2.drop t.length
  if f.isEmpty || w.isEmpty || t.isEmpty || !r3.isEmpty then none
  else some (String.mk f, String.mk t)

/-- One line of the legacy file: blank lines and comment lines are skipped,
non-matching lines are skipped with a warning, matches produce a split with a
single all-keys condition. -/
def legacyLineStep (acc : List (String × RawSplit)) (line : String) :
    List (String × RawSplit) :=
  if pyStrip line == "" then acc
  else if startsWithHash line then acc
  else
    match matchLegacyLine line with
    | none => acc
    | some ft => upsertFlag acc ft.1 (make_split ft.1 [make_all_keys_condition ft.2] .null)

/-- Translation of _read_splits_from_legacy_file; the file input is the text
content, or none when the file is unreadable, which raises the parsing
ValueError. -/
def read_splits_from_legacy_file (content : Option String) :
    Except PyError (List (String × RawSplit)) :=
  match content with
  | none => .error (.valueError "Error parsing file. Make sure it is readable.")
  | some text => .ok ((splitLines text).foldl legacyLineStep [])

/-- One entry of a decoded yaml statement: the treatment, the optional keys (a
scalar key is promoted to a singleton list by the source, so the model always
holds a list) and the optional config. -/
structure YamlEntry where
  treatment : String
  keys : Option (List String)
  config : Option String
deriving DecidableEq

/-- A yaml statement: a single-key mapping from a feature name to its entry. -/
abbrev YamlStatement := String × YamlEntry

/-- Stable insertion of a statement into a name-sorted list: an element is
placed before the first strictly-or-equally greater name, so equal names keep
their original order, as pythons stable sorted does. -/
def insertByName (e : YamlStatement) : List YamlStatement → List YamlStatement
  | [] => [e]
  | f :: rest => if strLe e.1 f.1 then e :: f :: rest else f :: insertByName e rest

/-- Stable sort of yaml statements by feature name. -/
def sortByName : List YamlStatement → List YamlStatement
  | [] => []
  | e :: rest => insertByName e (sortByName rest)

/-- Group a run of consecutive statements sharing the key. -/
def groupRunsGo (key : String) (cur : List YamlStatement) :
    List YamlStatement → List (List YamlStatement)
  | [] => [cur.reverse]
  | e :: rest =>
    if e.1 == key then groupRunsGo key (e :: cur) rest
    else cur.reverse :: groupRunsGo e.1 [e] rest

/-- itertools.groupby on a sorted list: maximal runs of equal keys. -/
def groupRuns : List YamlStatement → List (List YamlStatement)
  | [] => []
  | e :: rest => groupRunsGo e.1 [e] rest

/-- Upsert one treatment-config pair. -/
def upsertConfig : List (String × String) → String → String → List (String × String)
  | [], t, c => [(t, c)]
  | e :: rest, t, c => if e.1 == t then (t, c) :: rest else e :: upsertConfig rest t c

/-- Accumulator of one yaml feature group: configs, whitelist conditions and
all-keys conditions. -/
structure YamlAcc where
  configs : List (String × String)
  whitelist : List RawCondition
  allKeys : List RawCondition

/-- One statement of a yaml feature group: a statement with keys contributes a
whitelist condition, one without contributes an all-keys condition, and a
config value is recorded under the treatment. -/
def yamlStatementStep (acc : YamlAcc) (st : YamlStatement) : YamlAcc :=
  let data := st.2
  let acc1 :=
    match data.keys with
    | some ks =>
      { acc with whitelist := acc.whitelist ++ [make_whitelist_condition ks data.treatment] }
    | none =>
      { acc with allKeys := acc.allKeys ++ [make_all_keys_condition data.treatment] }
  match data.config with
  | some c => { acc1 with configs := upsertConfig acc1.configs data.treatment c }
  | none => acc1

/-- One yaml feature group turned into its split: whitelist conditions ahead
of all-keys conditions, configs collected into the configurations map.  The
empty-group case is unreachable because groupRuns only produces nonempty
runs. -/
def yamlGroupToSplit : List YamlStatement → String × RawSplit
  | [] => ("", make_split "" [] (.val []))
  | g@(e :: _) =>
    let acc := g.foldl yamlStatementStep ⟨[], [], []⟩
    (e.1, make_split e.1 (acc.whitelist ++ acc.allKeys) (.val acc.configs))

/-- Translation of _read_splits_from_yaml_file.  The external yaml.load is a
parameter; an unreadable file raises the parsing ValueError, while a yaml
parsing failure is not an IOError and therefore propagates unwrapped. -/
def read_splits_from_yaml_file (yamlLoad : String → Except PyError (List YamlStatement))
    (content : Option String) : Except PyError (List (String × RawSplit)) :=
  match content with
  | none => .error (.valueError "Error parsing file. Make sure it is readable.")
  | some text =>
    match yamlLoad text with
    | .error e => .error e
    | .ok parsed =>
      .ok (((groupRuns (sortByName parsed)).map yamlGroupToSplit).foldl
        (fun acc p => upsertFlag acc p.1 p.2) [])

/-- Translation of _synchronize_legacy: reads via the yaml reader when the
lowercased filename ends in .yaml or .yml and via the legacy reader
otherwise, then puts every fetched flag and removes the stored flags no
longer present.  A reader failure propagates before any storage mutation. -/
def synchronize_legacy (yamlLoad : String → Except PyError (List YamlStatement))
    (filename : String) (content : Option String) (storage : SplitStorage) :
    Except PyError (List String) × SplitStorage :=
  let fetchedE :=
    if lowerEndsWith filename ".yaml" || lowerEndsWith filename ".yml" then
      read_splits_from_yaml_file yamlLoad content
    else
      read_splits_from_legacy_file content
  match fetchedE with
  | .error e => (.error e, storage)
  | .ok fetched =>
    let toDelete := (storage.flags.map Prod.fst).filter
      (fun n => !((fetched.map Prod.fst).contains n))
    let storage1 := fetched.foldl (fun s p => storagePut s p.1 p.2) storage
    let storage2 := toDelete.foldl (fun s n => { s with flags := removeFlag s.flags n }) storage1
    (.ok [], storage2)

/-- The three localhost modes. -/
inductive LocalhostMode where
  | legacy : LocalhostMode
  | yaml : LocalhostMode
  | json : LocalhostMode
deriving DecidableEq

/-- The environment of one local synchronize call: the injected clock, the
external sha function, the filename and the file contents under each decoding
(the json decoder, the raw text, the external yaml decoder). -/
structure LocalEnv where
  nowMs : Int
  sha : String → String
  filename : String
  jsonContent : Option RawDocument
  textContent : Option String
  yamlLoad : String → Except PyError (List YamlStatement)

/-- The surrounding try-except of LocalSplitSynchronizer.synchronize_splits:
any failure of the dispatched call is re-raised as the single APIException
carrying the fetching-splits message; the state reached so far is kept,
matching the mutations already applied when the python exception unwinds. -/
def raiseFetchError (r : Except PyError (List String) × LocalSyncState) :
    Except PyError (List String) × LocalSyncState :=
  match r.1 with
  | .error _e => (.error (.apiException "Error fetching splits information" none), r.2)
  | .ok v => (.ok v, r.2)

/-- Lift a legacy-mode result, which only touches the storage, into the full
synchronizer state. -/
def withStorage (st : LocalSyncState) (p : Except PyError (List String) × SplitStorage) :
    Except PyError (List String) × LocalSyncState :=
  (p.1, { st with storage := p.2 })

/-- Translation of LocalSplitSynchronizer.synchronize_splits: dispatches on the
mode (JSON against everything else) and re-raises any failure as the single
APIException with the fetching-splits message. -/
def local_synchronize_splits (mode : LocalhostMode) (env : LocalEnv) (st : LocalSyncState) :
    Except PyError (List String) × LocalSyncState :=
  raiseFetchError
    (if mode == .json then
      synchronize_json env.nowMs env.sha env.jsonContent st
    else
      withStorage st (synchronize_legacy env.yamlLoad env.filename env.textContent st.storage))

/-! ### Remote synchronizer: backoff and the bounded retry wrapper -/

/-- Modelled from the spec: splitio/util/backoff.py is not under src/.  The
backoff cursor returns min(base * 2 ^ n, max_wait) for the current attempt n
and increments n; reset returns n to zero. -/
def backoff_value (base maxWait n : Nat) : Nat := min (base * 2 ^ n) maxWait

/-- The backoff delay of the split synchronizer, constructed with base 10
seconds and max wait 30 seconds. -/
def backoffGet (n : Nat) : Nat := backoff_value 10 30 n

/-- Fetch options, as consumed by the fetch API.  Modelled from the spec:
splitio/api/commons.py is not under src/; the options carry the
cache-control-no-cache flag and the optional change number used as a CDN
bypass hint. -/
structure FetchOptions where
  cacheControlNoCache : Bool
  changeNumber : Option Int
deriving DecidableEq

/-- The loop of _attempt_split_sync, recursing on the remaining attempt
budget.  fetchUntil gives the (change number, segment list) result of the
k-th _fetch_until call of this attempt run; idx counts those calls, n is the
backoff cursor and the accumulated sleeps record each backoff the loop slept
on.  The zero-budget case is unreachable from the public entry, which starts
the budget at ten. -/
def attempt_split_sync_go (fetchUntil : Nat → Int × List String) (till : Option Int) :
    Nat → Nat → Nat → List String → List Nat →
    Bool × Nat × Int × List String × List Nat
  | 0, _idx, _n, accSegs, accSleeps => (false, 0, -1, accSegs, accSleeps)
  | r + 1, idx, n, accSegs, accSleeps =>
    let cnSegs := fetchUntil idx
    let accSegs2 := accSegs ++ cnSegs.2
    match till with
    | none => (true, r, cnSegs.1, accSegs2, accSleeps)
    | some t =>
      if t ≤ cnSegs.1 then (true, r, cnSegs.1, accSegs2, accSleeps)
      else if r == 0 then (false, 0, cnSegs.1, accSegs2, accSleeps)
      else attempt_split_sync_go fetchUntil till r (idx + 1) (n + 1)
             accSegs2 (accSleeps ++ [backoffGet n])

/-- Translation of _attempt_split_sync: resets the backoff, grants ten
attempts and loops, returning
(success, remaining attempts, change number, segments, sleeps); success is
returned as soon as till is null or till is at most the change number just
fetched, failure when the budget is exhausted.  The segment-set union is
modelled as list append; no claim inspects segment contents. -/
def attempt_split_sync (fetchUntil : Nat → Int × List String) (till : Option Int) :
    Bool × Nat × Int × List String × List Nat :=
  attempt_split_sync_go fetchUntil till 10 0 0 [] []

/-- Translation of SplitSynchronizer.synchronize_splits: one attempt with
plain no-cache options and, only when it fails, a second attempt whose
options carry the change number last seen by the first attempt as the CDN
bypass hint.  Returns the accumulated segments on success (none on a second
failure, as the python falls off the end) together with the trace of the
options each attempt ran under. -/
def synchronize_splits_remote (fetchUntil : FetchOptions → Nat → Int × List String)
    (till : Option Int) : Option (List String) × List FetchOptions :=
  let fetchOptions : FetchOptions := { cacheControlNoCache := true, changeNumber := none }
  let r1 := attempt_split_sync (fetchUntil fetchOptions) till
  if r1.1 then
    (some r1.2.2.2.1, [fetchOptions])
  else
    let withCdnBypass : FetchOptions :=
      { cacheControlNoCache := true, changeNumber := some r1.2.2.1 }
    let r2 := attempt_split_sync (fetchUntil withCdnBypass) till
    if r2.1 then
      (some (r1.2.2.2.1 ++ r2.2.2.2.1), [fetchOptions, withCdnBypass])
    else
      (none, [fetchOptions, withCdnBypass])

/-! ### Auth endpoint -/

/-- An HTTP response as seen by the auth API. -/
structure HttpResponse where
  status_code : Int
  body : String
deriving DecidableEq

/-- Translation of AuthAPI.authenticate.  The input is the outcome of the
underlying client call: a transport failure (HttpClientException, carried as
its message) or a response.  Token parsing (json.loads plus
splitio.models.token.from_raw, neither under src/) is a parameter, per the
spec the body of a 2xx response parses to a token record.  The telemetry
producer is not under src/ either; per the spec its auth_rejections counter
is modelled as a natural number incremented by record_auth_rejections.
Returns the outcome together with the updated counter. -/
def authenticate {Token : Type} (parseToken : String → Token)
    (resp : Except String HttpResponse) (authRejections : Nat) :
    Except PyError Token × Nat :=
  match resp with
  | .error _msg => (.error (.apiException "Could not perform authentication." none),
                    authRejections)
  | .ok r =>
    if 200 ≤ r.status_code ∧ r.status_code < 300 then
      (.ok (parseToken r.body), authRejections)
    else
      let rej := if r.status_code == 401 then authRejections + 1 else authRejections
      (.error (.apiException r.body (some r.status_code)), rej)

/-! ### Claim C1 -/

/-- The failing input of claim C1: a split with a name and a defaultTreatment
equal to the empty string, which the field-table blacklist forbids. -/
def c1FailingSplit : RawSplit := { name := .val "split1", defaultTreatment := .val "" }

/-- Claim C1, evaluation at the failing input: the sanitizer keeps the
blacklisted empty defaultTreatment instead of overwriting it with on, because
the call site forwards only the first five entries of the per-field tuple and
drops the blacklist; had the blacklist been forwarded, sanitize_split_element
would have produced on. -/
theorem c1_defaultTreatment_blacklist_dropped :
    (sanitize_split_elements 0 [c1FailingSplit]).toOption.map
        (List.map (fun s => s.defaultTreatment)) = some [JField.val ""] ∧
    sanitize_split_element noLt (JField.val "") "on" none none none (some ["", " "]) = "on" := by
  decide

/-! ### Claim C9 -/

/-- Claim C9: authenticate raises an API failure exactly when the HTTP status
is outside [200, 300); on status 401 it additionally increments the
auth_rejections counter before raising; on a 2xx status it returns the token
record parsed from the response body. -/
theorem c9_authenticate_status_handling {Token : Type} (parseToken : String → Token)
    (r : HttpResponse) (rej : Nat) :
    ((∃ e, (authenticate parseToken (.ok r) rej).1 = .error e) ↔
      ¬(200 ≤ r.status_code ∧ r.status_code < 300)) ∧
    (r.status_code = 401 →
      authenticate parseToken (.ok r) rej
        = (.error (.apiException r.body (some 401)), rej + 1)) ∧
    ((200 ≤ r.status_code ∧ r.status_code < 300) →
      authenticate parseToken (.ok r) rej = (.ok (parseToken r.body), rej)) := by
  by_cases h : 200 ≤ r.status_code ∧ r.status_code < 300
  · refine ⟨?_, ?_, ?_⟩
    · simp [authenticate, h]
    · intro h401
      rw [h401] at h
      exact absurd h.2 (by decide)
    · intro _
      simp [authenticate, h]
  · refine ⟨?_, ?_, ?_⟩
    · simp [authenticate, h]
    · intro h401
      simp [authenticate, h, h401]
    · intro hc
      exact absurd hc h

/-- Claim C9, witness: a 401 response with body denied raises the API failure
carrying the body and the status, and bumps the counter from zero to one. -/
theorem c9_authenticate_status_handling_witness :
    authenticate (fun s => s) (.ok ⟨401, "denied"⟩) 0
      = (.error (.apiException "denied" (some 401)), 1) :=
  (c9_authenticate_status_handling (fun s => s) ⟨401, "denied"⟩ 0).2.1 rfl

/-! ### Claim C8 -/

/-- Claim C8: every failure of the local synchronizer, in any of the three
modes, surfaces as the single APIException carrying the fetching-splits
message, never as the underlying io or parse error. -/
theorem c8_local_failures_single_error_kind (mode : LocalhostMode) (env : LocalEnv)
    (st : LocalSyncState) (e : PyError) (st2 : LocalSyncState)
    (h : local_synchronize_splits mode env st = (.error e, st2)) :
    e = .apiException "Error fetching splits information" none := by
  unfold local_synchronize_splits raiseFetchError at h
  split at h
  · simp only [Prod.mk.injEq, Except.error.injEq] at h
    exact h.1.symm
  · simp only [Prod.mk.injEq] at h
    exact absurd h.1 (by simp)

/-- The environment of the C8 witness: a legacy-mode synchronizer whose file is
unreadable. -/
def c8env : LocalEnv :=
  { nowMs := 0, sha := fun s => s, filename := "splits.txt", jsonContent := none,
    textContent := none, yamlLoad := fun _ => .error (.valueError "yaml failure") }

/-- The starting state of the C8 witness. -/
def c8state : LocalSyncState := ⟨⟨some 0, []⟩, "-1"⟩

/-- Claim C8, witness: the unreadable legacy file fails and the surfaced error
is exactly the fetching-splits APIException. -/
theorem c8_local_failures_single_error_kind_witness :
    PyError.apiException "Error fetching splits information" none
      = .apiException "Error fetching splits information" none :=
  c8_local_failures_single_error_kind .legacy c8env c8state
    (.apiException "Error fetching splits information" none) c8state (by decide)

/-! ### Claim C10 -/

/-- Claim C10: in json mode, when the file reads successfully, its hash differs
from the recorded one and the storage change number is null (never fetched),
synchronize raises the single fetching-splits APIException, because the null
is compared against till before any mutation, and the storage is left
unchanged. -/
theorem c10_json_null_change_number (env : LocalEnv) (st : LocalSyncState)
    (fetched : List RawSplit) (till : Int)
    (hread : read_splits_from_json_file env.nowMs env.jsonContent = .ok (fetched, till))
    (hsha : env.sha (json_dumps_splits fetched) ≠ st.currentJsonSha)
    (hcn : st.storage.changeNumber = none) :
    (local_synchronize_splits .json env st).1
        = .error (.apiException "Error fetching splits information" none) ∧
    (local_synchronize_splits .json env st).2.storage = st.storage := by
  unfold local_synchronize_splits synchronize_json
  rw [hread]
  simp [hsha, hcn, raiseFetchError]

/-- The json document of the C10 witness: one raw split with only a name. -/
def c10doc : RawDocument :=
  { splits := .val [{ name := .val "flag1" }], till := .val 10, since := .val 10 }

/-- The environment of the C10 witness. -/
def c10env : LocalEnv :=
  { nowMs := 0, sha := fun s => s, filename := "splits.json", jsonContent := some c10doc,
    textContent := none, yamlLoad := fun _ => .ok [] }

/-- The starting state of the C10 witness: a storage that never fetched. -/
def c10state : LocalSyncState := ⟨⟨none, []⟩, "-1"⟩

/-- The sanitized splits array the C10 witness file reads to. -/
def c10fetched : List RawSplit :=
  match read_splits_from_json_file 0 (some c10doc) with
  | .ok p => p.1
  | .error _ => []

/-- The till the C10 witness file reads to. -/
def c10till : Int :=
  match read_splits_from_json_file 0 (some c10doc) with
  | .ok p => p.2
  | .error _ => -1

set_option maxRecDepth 100000 in
/-- Claim C10, witness: the concrete never-fetched storage raises the
fetching-splits APIException and is left unchanged. -/
theorem c10_json_null_change_number_witness :
    (local_synchronize_splits .json c10env c10state).1
        = .error (.apiException "Error fetching splits information" none) ∧
    (local_synchronize_splits .json c10env c10state).2.storage = c10state.storage :=
  c10_json_null_change_number c10env c10state c10fetched c10till (by decide) (by decide) (by decide)

/-! ### Claim C3 -/

/-- The raw split of the C3 runs: only a name, so sanitization fills in every
other field and changes the stringification. -/
def c3rawsplit : RawSplit := { name := .val "flag1" }

/-- The json document of the C3 runs. -/
def c3doc : RawDocument := { splits := .val [c3rawsplit], till := .val 10, since := .val 10 }

/-- The state of the C3 counterexample: the recorded sha is the digest of the
stable stringification of the pre-sanitization splits array of the file. -/
def c3state : LocalSyncState := ⟨⟨some 0, []⟩, json_dumps_splits [c3rawsplit]⟩

set_option maxRecDepth 100000 in
/-- Claim C3, counterexample: with the digest modelled as the identity on the
stable stringification, the recorded sha equals the hash of the
pre-sanitization splits array of the file, yet the call is not a no-op: the
storage change number is written from 0 to 10, because the code hashes the
post-sanitization array, whose stringification differs. -/
theorem c3_presanitization_hash_counterexample :
    c3state.currentJsonSha = (fun s => s) (json_dumps_splits [c3rawsplit]) ∧
    c3doc.splits = JField.val [c3rawsplit] ∧
    c3state.storage.changeNumber = some 0 ∧
    (synchronize_json 0 (fun s => s) (some c3doc) c3state).2.storage.changeNumber = some 10 := by
  decide

/-- Claim C3 (amended): in json mode the synchronizer hashes the stable
stringification of the post-sanitization splits array, the array the file
read returns; when that hash equals the recorded one the call is a no-op: no
put, remove or change-number write occurs and the state is returned
unchanged. -/
theorem c3_postsanitization_hash_noop (nowMs : Int) (sha : String → String)
    (content : Option RawDocument) (st : LocalSyncState)
    (fetched : List RawSplit) (till : Int)
    (hread : read_splits_from_json_file nowMs content = .ok (fetched, till))
    (hsha : sha (json_dumps_splits fetched) = st.currentJsonSha) :
    synchronize_json nowMs sha content st = (.ok [], st) := by
  unfold synchronize_json
  rw [hread]
  simp [hsha]

/-- The sanitized splits array the C3 witness file reads to. -/
def c3fetched : List RawSplit :=
  match read_splits_from_json_file 0 (some c3doc) with
  | .ok p => p.1
  | .error _ => []

/-- The till the C3 witness file reads to. -/
def c3till : Int :=
  match read_splits_from_json_file 0 (some c3doc) with
  | .ok p => p.2
  | .error _ => -1

/-- The state of the C3 witness: the recorded sha is the digest of the
post-sanitization splits array. -/
def c3stateB : LocalSyncState := ⟨⟨some 0, []⟩, json_dumps_splits c3fetched⟩

set_option maxRecDepth 100000 in
/-- Claim C3, witness: with the recorded sha equal to the post-sanitization
digest, the concrete call is a no-op. -/
theorem c3_postsanitization_hash_noop_witness :
    synchronize_json 0 (fun s => s) (some c3doc) c3stateB = (.ok [], c3stateB) :=
  c3_postsanitization_hash_noop 0 (fun s => s) (some c3doc) c3stateB c3fetched c3till
    (by decide) (by decide)

/-! ### Claim C5 -/

theorem condHasAllKeys_ok (c : RawCondition) (b : Bool)
    (h : condHasAllKeys c = .ok b) : isAllKeysRollout c = b := by
  obtain ⟨ct, mg, parts, lab⟩ := c
  cases ct with
  | missing => simp_all [condHasAllKeys, isAllKeysRollout]
  | null => simp_all [condHasAllKeys, isAllKeysRollout]
  | val ct =>
    by_cases hr : ct = "ROLLOUT"
    · subst hr
      cases mg with
      | missing => simp_all [condHasAllKeys, isAllKeysRollout]
      | null => simp_all [condHasAllKeys, isAllKeysRollout]
      | val g =>
        obtain ⟨comb, ms⟩ := g
        cases ms with
        | missing => simp_all [condHasAllKeys, isAllKeysRollout]
        | null => simp_all [condHasAllKeys, isAllKeysRollout]
        | val l => simp_all [condHasAllKeys, isAllKeysRollout]
    · simp_all [condHasAllKeys, isAllKeysRollout, hr]

theorem findAllKeysMatcher_ok (l : List RawCondition) (b : Bool)
    (h : findAllKeysMatcher l = .ok b) : l.any isAllKeysRollout = b := by
  induction l generalizing b with
  | nil => simpa [findAllKeysMatcher] using h
  | cons c rest ih =>
    unfold findAllKeysMatcher at h
    cases hc : condHasAllKeys c with
    | error e => rw [hc] at h; simp at h
    | ok bc =>
      rw [hc] at h
      cases hr : findAllKeysMatcher rest with
      | error e => rw [hr] at h; simp at h
      | ok r =>
        rw [hr] at h
        simp only [Except.ok.injEq] at h
        subst h
        simp [List.any_cons, condHasAllKeys_ok c bc hc, ih r hr]

theorem santizie_condition_ensures (s s2 : RawSplit)
    (h : santizie_condition s = .ok s2) :
    ∃ conds, s2.conditions = JField.val conds ∧ conds.any isAllKeysRollout = true := by
  unfold santizie_condition at h
  cases hf : findAllKeysMatcher (condsOf s) with
  | error e => rw [hf] at h; simp at h
  | ok b =>
    rw [hf] at h
    cases b with
    | true =>
      simp only [Except.ok.injEq] at h
      subst h
      exact ⟨condsOf s, rfl, findAllKeysMatcher_ok _ _ hf⟩
    | false =>
      simp only [Except.ok.injEq] at h
      subst h
      refine ⟨condsOf s ++ [defaultRuleCondition], rfl, ?_⟩
      have hd : isAllKeysRollout defaultRuleCondition = true := by decide
      simp [List.any_append, hd]

/-- Claim C5: every split surviving sanitization carries, in its output
conditions, at least one ROLLOUT condition containing an ALL_KEYS matcher;
when the scan finds none in the input, exactly one such condition is
appended, and its default rule assigns size 100 to treatment off. -/
theorem c5_rollout_allkeys_invariant (nowMs : Int) (input out : List RawSplit)
    (h : sanitize_split_elements nowMs input = .ok out) :
    (∀ s ∈ out, ∃ conds, s.conditions = JField.val conds ∧ conds.any isAllKeysRollout = true) ∧
    (∀ s : RawSplit, findAllKeysMatcher (condsOf s) = .ok false →
        santizie_condition s
          = .ok { s with conditions := .val (condsOf s ++ [defaultRuleCondition]) }) ∧
    defaultRuleCondition.partitions = .val [⟨"on", 0⟩, ⟨"off", 100⟩] := by
  refine ⟨?_, ?_, by decide⟩
  · induction input generalizing out with
    | nil =>
      simp only [sanitize_split_elements, Except.ok.injEq] at h
      subst h
      intro s hs
      exact absurd hs (List.not_mem_nil s)
    | cons s0 rest ih =>
      unfold sanitize_split_elements at h
      split at h
      · exact ih out h
      · simp at h
      · split_ifs at h
        · exact ih out h
        · split at h
          · simp at h
          · rename_i s2 hsc
            split at h
            · simp at h
            · rename_i rest2 hrest
              simp only [Except.ok.injEq] at h
              subst h
              intro s hs
              rcases List.mem_cons.mp hs with h1 | h2
              · subst h1
                exact santizie_condition_ensures _ _ hsc
              · exact ih rest2 hrest s h2
  · intro s hf
    unfold santizie_condition
    rw [hf]

/-- The input split of the C5 witness: a named split with no conditions. -/
def c5input : RawSplit := { name := .val "flag1" }

/-- The sanitizer output of the C5 witness run. -/
def c5out : List RawSplit :=
  match sanitize_split_elements 0 [c5input] with
  | .ok l => l
  | .error _ => []

/-- Claim C5, witness: sanitizing the concrete one-split input succeeds and the
surviving split carries a ROLLOUT plus ALL_KEYS condition. -/
theorem c5_rollout_allkeys_invariant_witness :
    ∃ conds, (c5out.headD c5input).conditions = JField.val conds ∧
      conds.any isAllKeysRollout = true := by
  have hrun : sanitize_split_elements 0 [c5input] = .ok c5out := by decide
  have hmem : c5out.headD c5input ∈ c5out := by decide
  exact (c5_rollout_allkeys_invariant 0 [c5input] c5out hrun).1 _ hmem

/-! ### Claim C6 -/

theorem range_map_flatten_succ {α : Type} (h : Nat → List α) (k : Nat) :
    ((List.range (k + 1)).map h).flatten
      = h 0 ++ ((List.range k).map (fun i => h (i + 1))).flatten := by
  simp [List.range_succ_eq_map, List.map_map, Function.comp_def, Nat.succ_eq_add_one]

theorem range_map_succ {α : Type} (g : Nat → α) (k : Nat) :
    (List.range (k + 1)).map g = g 0 :: (List.range k).map (fun j => g (j + 1)) := by
  simp [List.range_succ_eq_map, List.map_map, Function.comp_def, Nat.succ_eq_add_one]

theorem attempt_go_agree (f g : Nat → Int × List String) (till : Option Int) :
    ∀ (r idx n : Nat) (segs : List String) (sleeps : List Nat),
      (∀ i, idx ≤ i → i < idx + r → f i = g i) →
      attempt_split_sync_go f till r idx n segs sleeps
        = attempt_split_sync_go g till r idx n segs sleeps := by
  intro r
  induction r with
  | zero => intro idx n segs sleeps _; rfl
  | succ m ih =>
    intro idx n segs sleeps hag
    have hfg : f idx = g idx := hag idx (le_refl idx) (by omega)
    cases till with
    | none => simp [attempt_split_sync_go, hfg]
    | some t =>
      rw [attempt_split_sync_go, attempt_split_sync_go]
      rw [hfg]
      by_cases h1 : t ≤ (g idx).1
      · simp [h1]
      · rw [if_neg h1, if_neg h1]
        by_cases hm : m = 0
        · subst hm; simp
        · have hne : (m == 0) = false := by simpa using hm
          simp only [hne, Bool.false_eq_true, if_false]
          exact ih (idx + 1) (n + 1) _ _ (fun i hi1 hi2 => hag i (by omega) (by omega))

theorem attempt_go_hit (f : Nat → Int × List String) (t : Int) :
    ∀ (k r idx n : Nat) (segs : List String) (sleeps : List Nat),
      k ≤ r →
      (∀ i, i < k → (f (idx + i)).1 < t) →
      t ≤ (f (idx + k)).1 →
      attempt_split_sync_go f (some t) (r + 1) idx n segs sleeps
        = (true, r - k, (f (idx + k)).1,
           segs ++ ((List.range (k + 1)).map (fun i => (f (idx + i)).2)).flatten,
           sleeps ++ (List.range k).map (fun j => backoffGet (n + j))) := by
  intro k
  induction k with
  | zero =>
    intro r idx n segs sleeps _ _ hhit
    rw [Nat.add_zero] at hhit
    rw [attempt_split_sync_go]
    simp [hhit, List.range_succ]
  | succ k ih =>
    intro r idx n segs sleeps hkr hbelow hhit
    have h0 : (f idx).1 < t := by simpa using hbelow 0 (Nat.succ_pos k)
    have hnle : ¬ t ≤ (f idx).1 := not_le.mpr h0
    rw [attempt_split_sync_go]
    rw [if_neg hnle]
    obtain ⟨m, rfl⟩ : ∃ m, r = m + 1 := ⟨r - 1, by omega⟩
    have hne : ((m + 1) == 0) = false := by simp
    simp only [hne, Bool.false_eq_true, if_false]
    have hbelow2 : ∀ i, i < k → (f (idx + 1 + i)).1 < t := by
      intro i hi
      have := hbelow (i + 1) (by omega)
      simpa [Nat.add_assoc, Nat.add_comm, Nat.add_left_comm] using this
    have hhit2 : t ≤ (f (idx + 1 + k)).1 := by
      have := hhit
      simpa [Nat.add_assoc, Nat.add_comm, Nat.add_left_comm] using this
    rw [ih m (idx + 1) (n + 1) _ _ (by omega) hbelow2 hhit2]
    rw [range_map_flatten_succ (fun i => (f (idx + i)).2) (k + 1),
        range_map_succ (fun j => backoffGet (n + j)) k]
    simp [Nat.add_assoc, Nat.add_comm, Nat.add_left_comm, Nat.succ_sub_succ,
      List.append_assoc]

theorem attempt_go_exhaust (f : Nat → Int × List String) (t : Int) :
    ∀ (r idx n : Nat) (segs : List String) (sleeps : List Nat),
      (∀ i, i < r + 1 → (f (idx + i)).1 < t) →
      attempt_split_sync_go f (some t) (r + 1) idx n segs sleeps
        = (false, 0, (f (idx + r)).1,
           segs ++ ((List.range (r + 1)).map (fun i => (f (idx + i)).2)).flatten,
           sleeps ++ (List.range r).map (fun j => backoffGet (n + j))) := by
  intro r
  induction r with
  | zero =>
    intro idx n segs sleeps hbelow
    have h0 : (f idx).1 < t := by simpa using hbelow 0 (by omega)
    have hnle : ¬ t ≤ (f idx).1 := not_le.mpr h0
    rw [attempt_split_sync_go]
    simp [hnle, List.range_succ]
  | succ m ih =>
    intro idx n segs sleeps hbelow
    have h0 : (f idx).1 < t := by simpa using hbelow 0 (by omega)
    have hnle : ¬ t ≤ (f idx).1 := not_le.mpr h0
    rw [attempt_split_sync_go]
    rw [if_neg hnle]
    have hne : ((m + 1) == 0) = false := by simp
    simp only [hne, Bool.false_eq_true, if_false]
    have hbelow2 : ∀ i, i < m + 1 → (f (idx + 1 + i)).1 < t := by
      intro i hi
      have := hbelow (i + 1) (by omega)
      simpa [Nat.add_assoc, Nat.add_comm, Nat.add_left_comm] using this
    rw [ih (idx + 1) (n + 1) _ _ hbelow2]
    rw [range_map_flatten_succ (fun i => (f (idx + i)).2) (m + 1),
        range_map_succ (fun j => backoffGet (n + j)) m]
    simp [Nat.add_assoc, Nat.add_comm, Nat.add_left_comm, List.append_assoc]

/-- Claim C6: attempt_split_sync performs at most ten fetch_until calls (its
result depends only on the first ten fetch results); with a null till it
succeeds after the first call with no sleep; with till = t it succeeds as
soon as a call returns a change number at least t, having slept the next
backoff delay between consecutive failed calls; and when every one of the
ten calls stays below t it fails with exactly ten attempts and the nine
sleeps 10, 20, 30, 30, 30, 30, 30, 30, 30. -/
theorem c6_attempt_sync_bounded_backoff :
    (∀ (f g : Nat → Int × List String) (till : Option Int),
        (∀ i, i < 10 → f i = g i) →
        attempt_split_sync f till = attempt_split_sync g till) ∧
    (∀ f : Nat → Int × List String,
        attempt_split_sync f none = (true, 9, (f 0).1, (f 0).2, [])) ∧
    (∀ (f : Nat → Int × List String) (t : Int) (k : Nat),
        k < 10 → (∀ i, i < k → (f i).1 < t) → t ≤ (f k).1 →
        attempt_split_sync f (some t)
          = (true, 9 - k, (f k).1,
             ((List.range (k + 1)).map (fun i => (f i).2)).flatten,
             (List.range k).map backoffGet)) ∧
    (∀ (f : Nat → Int × List String) (t : Int),
        (∀ i, i < 10 → (f i).1 < t) →
        attempt_split_sync f (some t)
          = (false, 0, (f 9).1,
             ((List.range 10).map (fun i => (f i).2)).flatten,
             [10, 20, 30, 30, 30, 30, 30, 30, 30])) := by
  refine ⟨?_, ?_, ?_, ?_⟩
  · intro f g till hag
    exact attempt_go_agree f g till 10 0 0 [] [] (fun i _ hi => hag i (by omega))
  · intro f
    simp [attempt_split_sync, attempt_split_sync_go]
  · intro f t k hk hbelow hhit
    have h := attempt_go_hit f t k 9 0 0 [] [] (by omega)
      (fun i hi => by simpa using hbelow i hi) (by simpa using hhit)
    simpa using h
  · intro f t hbelow
    have h := attempt_go_exhaust f t 9 0 0 [] []
      (fun i hi => by simpa using hbelow i hi)
    have hsleeps : (List.range 9).map (fun j => backoffGet (0 + j))
        = [10, 20, 30, 30, 30, 30, 30, 30, 30] := by decide
    simpa [hsleeps] using h

/-- Claim C6, witness: with till 200 and every fetch returning change number
100, the run fails after ten attempts with the nine backoff sleeps. -/
theorem c6_attempt_sync_bounded_backoff_witness :
    attempt_split_sync (fun _ => ((100 : Int), ([] : List String))) (some 200)
      = (false, 0, 100, [], [10, 20, 30, 30, 30, 30, 30, 30, 30]) := by
  have h := c6_attempt_sync_bounded_backoff.2.2.2
    (fun _ => ((100 : Int), ([] : List String))) 200
    (fun i _ => show (100 : Int) < 200 by decide)
  rw [h]
  decide

/-! ### Claim C7 -/

/-- Claim C7: synchronize issues a second attempt_sync exactly when the first
one fails, and the second attempt carries the CDN bypass hint equal to the
change number last seen by the first attempt; when the first attempt
succeeds no second attempt is made. -/
theorem c7_cdn_bypass_escalation (fetchUntil : FetchOptions → Nat → Int × List String)
    (till : Option Int) :
    ((attempt_split_sync (fetchUntil ⟨true, none⟩) till).1 = true →
      synchronize_splits_remote fetchUntil till
        = (some (attempt_split_sync (fetchUntil ⟨true, none⟩) till).2.2.2.1,
           [⟨true, none⟩])) ∧
    ((attempt_split_sync (fetchUntil ⟨true, none⟩) till).1 = false →
      (synchronize_splits_remote fetchUntil till).2
        = [⟨true, none⟩,
           ⟨true, some (attempt_split_sync (fetchUntil ⟨true, none⟩) till).2.2.1⟩]) := by
  constructor
  · intro h
    simp [synchronize_splits_remote, h]
  · intro h
    by_cases h2 : (attempt_split_sync
        (fetchUntil ⟨true, some (attempt_split_sync (fetchUntil ⟨true, none⟩) till).2.2.1⟩)
        till).1 = true
    · simp [synchronize_splits_remote, h, h2]
    · simp [synchronize_splits_remote, h, h2]

/-- The fetch behaviour of the C7 witness: plain fetches converge to 100,
fetches with a CDN bypass hint converge to 250. -/
def c7fetch (opts : FetchOptions) (_i : Nat) : Int × List String :=
  match opts.changeNumber with
  | none => (100, [])
  | some _ => (250, [])

/-- Claim C7, witness: with till 200 the first attempt stalls at 100 and the
second attempt is issued with the CDN bypass hint 100. -/
theorem c7_cdn_bypass_escalation_witness :
    (synchronize_splits_remote c7fetch (some 200)).2
      = [⟨true, none⟩, ⟨true, some 100⟩] := by
  have h := (c7_cdn_bypass_escalation c7fetch (some 200)).2 (by decide)
  rw [h]
  decide
